import Mathlib

/-!
Verification of the trade-log analyzer and report-aggregation core of the
code-bulls repository.

The Python sources are embedded shallowly:

* floating-point prices, sizes, equities and PnL values are modelled as
  rationals (`ℚ`) — every computation the claims touch is exact field
  arithmetic with guards, so no rounding behaviour is involved;
* timestamps are modelled as rational "seconds since an arbitrary epoch";
  the source only ever subtracts two timestamps and divides by 86400
  (seconds per day), which the embedding mirrors literally;
* Python dicts keyed by trade reference / analyzer name are modelled as
  association lists with first-match lookup, updates in place, and
  appends for fresh keys — exactly the observable behaviour of a dict
  under the operations the source performs;
* a Python function that can raise is modelled in `Except Unit`, where
  `Except.error ()` stands for an uncaught exception reaching the caller.
-/

namespace CodeBulls

/-! ### Association-list model of Python dicts -/

/-- First-match lookup, the model of `d[k]` / `k in d`. -/
def alistGet {κ α : Type} [DecidableEq κ] : List (κ × α) → κ → Option α
  | [], _ => none
  | (k', v) :: rest, k => if k' = k then some v else alistGet rest k

/-- The model of `d[k] = v`: update in place if present, append if fresh. -/
def alistSet {κ α : Type} [DecidableEq κ] : List (κ × α) → κ → α → List (κ × α)
  | [], k, v => [(k, v)]
  | (k', v') :: rest, k, v =>
      if k' = k then (k, v) :: rest else (k', v') :: alistSet rest k v

/-- The model of `d.pop(k, ...)`'s removal effect. -/
def alistErase {κ α : Type} [DecidableEq κ] : List (κ × α) → κ → List (κ × α)
  | [], _ => []
  | (k', v') :: rest, k => if k' = k then rest else (k', v') :: alistErase rest k

/-! ### Data model (`src/stats/models.py`) -/

/-- Mirrors the `TradeLogEntry` dataclass of `src/stats/models.py`.
`entry_time` / `exit_time` hold the timestamps themselves (the source
stores their ISO rendering, a bijective presentation step). -/
structure TradeLogEntry where
  ticket_id : Nat
  strategy_name : String
  symbol : String
  side : String
  entry_time : ℚ
  exit_time : ℚ
  entry_price : ℚ
  exit_price : ℚ
  size : ℚ
  pnl_net : ℚ
  pnl_pct : ℚ
  duration_days : ℚ
deriving Repr, DecidableEq

/-- Mirrors the `SymbolStats` dataclass of `src/stats/models.py`. -/
structure SymbolStats where
  strategy_name : String
  symbol : String
  total_trades : Nat
  net_profit : ℚ
  win_rate : ℚ
  avg_trade_pnl : ℚ
  best_trade : ℚ
  worst_trade : ℚ
deriving Repr, DecidableEq

/-- Mirrors the `StrategyStats` dataclass of `src/stats/models.py`. -/
structure StrategyStats where
  strategy_id : String
  total_pnl : ℚ
  total_trades : Nat
  win_rate : ℚ
  profit_factor : ℚ
  max_drawdown_pct : ℚ
  sharpe_ratio : ℚ
  best_symbol : String
  worst_symbol : String
deriving Repr, DecidableEq

/-! ### The trade-record builder (`ThreeLayerAnalyzer` of `src/stats/analyzers.py`) -/

/-- The fields of the backtrader `trade` object (plus its data feed) that
`ThreeLayerAnalyzer.notify_trade` reads on one notification. -/
structure TradeNotification where
  /-- `trade.ref`, the stable trade-session identifier. -/
  ref : Nat
  /-- `trade.data._name`. -/
  symbol : String
  /-- `trade.isclosed`. -/
  isclosed : Bool
  /-- `trade.size`, the engine-reported current size (0 once closed). -/
  size : ℚ
  /-- `trade.price`, the (average) entry price of the trade. -/
  price : ℚ
  /-- `trade.pnlcomm`, net PnL after commission. -/
  pnlcomm : ℚ
  /-- `trade.data.close[0]`, the current market close used as exit price. -/
  data_close : ℚ
  /-- `trade.open_datetime()` in seconds. -/
  open_dt : ℚ
  /-- `trade.close_datetime()` in seconds. -/
  close_dt : ℚ
deriving Repr, DecidableEq

/-- The mutable state set up by `ThreeLayerAnalyzer.start`. -/
structure AnalyzerState where
  trades_history : List TradeLogEntry
  trade_id_counter : Nat
  strategy_name : String
  /-- The `_max_sizes` dict: trade ref ↦ max-magnitude size seen. -/
  max_sizes : List (Nat × ℚ)
deriving Repr, DecidableEq

namespace ThreeLayerAnalyzer

/-- Mirrors `ThreeLayerAnalyzer.start`. -/
def start (strategy_name : String) : AnalyzerState :=
  { trades_history := []
    trade_id_counter := 1
    strategy_name := strategy_name
    max_sizes := [] }

/-- Step 1 of `notify_trade` (lines 21–25 of `analyzers.py`): remember the
first size seen for a ref, replacing it whenever a strictly larger
magnitude appears. -/
def trackMaxSize (max_sizes : List (Nat × ℚ)) (ref : Nat) (size : ℚ) :
    List (Nat × ℚ) :=
  match alistGet max_sizes ref with
  | none => alistSet max_sizes ref size
  | some cur => if |size| > |cur| then alistSet max_sizes ref size else max_sizes

/-- Steps 2–5 of `notify_trade` on a closed trade (lines 31–66 of
`analyzers.py`): retrieve the remembered size (`pop` with default 0) and
build the `TradeLogEntry`. -/
def closedEntry (st : AnalyzerState) (t : TradeNotification) : TradeLogEntry :=
  let original_size := (alistGet (trackMaxSize st.max_sizes t.ref t.size) t.ref).getD 0
  let entry_dt := t.open_dt
  let exit_dt := t.close_dt
  let duration := (exit_dt - entry_dt) / 86400
  let side := if original_size > 0 then "Long" else "Short"
  let pnl_net := t.pnlcomm
  let entry_price := t.price
  let entry_value := |entry_price * original_size|
  let pnl_pct := if entry_value ≠ 0 then pnl_net / entry_value * 100 else 0
  { ticket_id := st.trade_id_counter
    strategy_name := st.strategy_name
    symbol := t.symbol
    side := side
    entry_time := entry_dt
    exit_time := exit_dt
    entry_price := entry_price
    exit_price := t.data_close
    size := original_size
    pnl_net := pnl_net
    pnl_pct := pnl_pct
    duration_days := duration }

/-- Mirrors `ThreeLayerAnalyzer.notify_trade`. -/
def notify_trade (st : AnalyzerState) (t : TradeNotification) : AnalyzerState :=
  let max_sizes := trackMaxSize st.max_sizes t.ref t.size
  if t.isclosed = false then
    { st with max_sizes := max_sizes }
  else
    { st with
        trades_history := st.trades_history ++ [closedEntry st t]
        trade_id_counter := st.trade_id_counter + 1
        max_sizes := alistErase max_sizes t.ref }

/-- Feeding a whole notification stream to the analyzer. -/
def run (st : AnalyzerState) (ns : List TradeNotification) : AnalyzerState :=
  ns.foldl notify_trade st

end ThreeLayerAnalyzer

/-! ### Aggregation (`ThreeLayerAnalyzer.stop` of `src/stats/analyzers.py`) -/

/-- Python's `max(xs, default=d)`. -/
def maxD : List ℚ → ℚ → ℚ
  | [], d => d
  | x :: xs, _ => xs.foldl max x

/-- Python's `min(xs, default=d)`. -/
def minD : List ℚ → ℚ → ℚ
  | [], d => d
  | x :: xs, _ => xs.foldl min x

/-- The `defaultdict(list)` grouping loop of `stop`: keys appear in
first-encountered order, each group in arrival order. -/
def groupBySymbol (history : List TradeLogEntry) :
    List (String × List TradeLogEntry) :=
  history.foldl
    (fun acc t =>
      if acc.any (fun g => g.1 = t.symbol) then
        acc.map (fun g => if g.1 = t.symbol then (g.1, g.2 ++ [t]) else g)
      else acc ++ [(t.symbol, [t])])
    []

/-- The per-symbol `SymbolStats` construction of `stop` (lines 78–93). -/
def symbolStatsOf (strategy_name symbol : String)
    (trades : List TradeLogEntry) : SymbolStats :=
  let total_pnl := (trades.map (·.pnl_net)).sum
  let wins := (trades.filter (fun t => t.pnl_net > 0)).length
  let total_count := trades.length
  { strategy_name := strategy_name
    symbol := symbol
    total_trades := total_count
    net_profit := total_pnl
    win_rate := if total_count ≠ 0 then (wins : ℚ) / total_count * 100 else 0
    avg_trade_pnl := if total_count ≠ 0 then total_pnl / total_count else 0
    best_trade := maxD (trades.map (·.pnl_net)) 0
    worst_trade := minD (trades.map (·.pnl_net)) 0 }

/-- The `symbol_stats_list` built by `stop`. -/
def symbolStatsList (strategy_name : String) (history : List TradeLogEntry) :
    List SymbolStats :=
  (groupBySymbol history).map fun g => symbolStatsOf strategy_name g.1 g.2

/-- The slice of an external analyzer's `get_analysis()` dict that `stop`
reads: the `max.drawdown` chain, the `sharperatio` key, and the dict's
Python truthiness (`{}` is falsy). -/
structure Analysis where
  max_drawdown : Option ℚ
  sharperatio : Option ℚ
  truthy : Bool
deriving Repr, DecidableEq

/-- The empty dict `{}` returned by `get_an` for an absent analyzer. -/
def Analysis.emptyDict : Analysis := ⟨none, none, false⟩

/-- The strategy's named external analyzers. A value `Except.error ()`
models a `get_analysis()` call that raises. -/
abbrev AnalyzerRegistry := List (String × Except Unit Analysis)

/-- Mirrors the `get_an` helper inside `stop` (lines 97–100): an absent
name yields `{}`; a present analyzer's `get_analysis()` is called with no
exception handling, so a raise propagates. -/
def get_an (reg : AnalyzerRegistry) (name : String) : Except Unit Analysis :=
  match alistGet reg name with
  | some res => res
  | none => .ok Analysis.emptyDict

/-- The pure `StrategyStats` construction of `stop` (lines 105–123), after
the two `get_an` calls have produced their dicts. -/
def strategyStatsOf (dd_an sharpe_an : Analysis) (strategy_name : String)
    (history : List TradeLogEntry) (symbol_stats_list : List SymbolStats) :
    StrategyStats :=
  let all_pnl := (history.map (·.pnl_net)).sum
  let all_wins := (history.filter (fun t => t.pnl_net > 0)).length
  let all_losses_pnl :=
    ((history.filter (fun t => t.pnl_net < 0)).map (fun t => |t.pnl_net|)).sum
  let all_wins_pnl :=
    ((history.filter (fun t => t.pnl_net > 0)).map (·.pnl_net)).sum
  let count := history.length
  let sorted_symbols :=
    List.insertionSort (fun a b => a.net_profit ≤ b.net_profit) symbol_stats_list
  { strategy_id := strategy_name
    total_pnl := all_pnl
    total_trades := count
    win_rate := if count ≠ 0 then (all_wins : ℚ) / count * 100 else 0
    profit_factor := if all_losses_pnl > 0 then all_wins_pnl / all_losses_pnl else 999
    max_drawdown_pct := if dd_an.truthy then dd_an.max_drawdown.getD 0 else 0
    sharpe_ratio :=
      if sharpe_an.truthy ∧ sharpe_an.sharperatio.getD 0 ≠ 0 then
        sharpe_an.sharperatio.getD 0
      else 0
    best_symbol :=
      match sorted_symbols.getLast? with
      | some s => s.symbol
      | none => "N/A"
    worst_symbol :=
      match sorted_symbols.head? with
      | some s => s.symbol
      | none => "N/A" }

/-- Mirrors `ThreeLayerAnalyzer.stop`: builds the per-symbol stats, pulls
the two external analyzers (a raise in either propagates), and builds the
strategy stats. -/
def ThreeLayerAnalyzer.stop (reg : AnalyzerRegistry) (st : AnalyzerState) :
    Except Unit (List SymbolStats × StrategyStats) :=
  let symbol_stats_list := symbolStatsList st.strategy_name st.trades_history
  match get_an reg "drawdown" with
  | .error e => .error e
  | .ok dd_an =>
      match get_an reg "sharpe" with
      | .error e => .error e
      | .ok sharpe_an =>
          .ok (symbol_stats_list,
            strategyStatsOf dd_an sharpe_an st.strategy_name st.trades_history
              symbol_stats_list)

/-! ### The detailed trade log (`TradeLog` of `src/stats/tradeLog.py`) -/

/-- The fields of the backtrader `trade` object that `TradeLog.notify_trade`
reads on one notification. -/
structure TLNotification where
  /-- Whether `trade.data` is not `None`. -/
  has_data : Bool
  /-- `id(trade)`, the identity key of the `_open_trades` dict. -/
  obj_key : Nat
  /-- `trade.isopen`. -/
  isopen : Bool
  /-- `trade.isclosed`. -/
  isclosed : Bool
  /-- `trade.price`. -/
  price : ℚ
  /-- `trade.size`. -/
  size : ℚ
  /-- `trade.data._name`. -/
  data_name : String
  /-- `data.datetime.datetime(0)` in seconds. -/
  current_dt : ℚ
  /-- `data.close[0]`. -/
  data_close : ℚ
  /-- `trade.pnlcomm` when the attribute exists. -/
  pnlcomm : Option ℚ
  /-- `trade.pnl`, the gross-PnL fallback. -/
  pnl : ℚ
  /-- `self.strategy.broker.getvalue()`. -/
  equity : ℚ
deriving Repr, DecidableEq

/-- The per-session dict stored into `_open_trades`. `strategy_name` is
`some` only for the regular open branch; the minimal record synthesized on
an unmatched close omits that key. -/
structure OpenInfo where
  trade_id : Nat
  strategy_name : Option String
  data_name : String
  side : String
  entry_time : ℚ
  entry_price : ℚ
  size : ℚ
  equity_at_entry : ℚ
  position_value_at_entry : ℚ
  position_fraction_of_equity : ℚ
deriving Repr, DecidableEq

/-- The row dict appended to `self.trades` on a close. -/
structure TradeRow where
  trade_id : Nat
  data_name : String
  side : String
  entry_time : ℚ
  exit_time : ℚ
  entry_price : ℚ
  exit_price : ℚ
  size : ℚ
  position_value_at_entry : ℚ
  position_fraction_of_equity : ℚ
  pnl_abs : ℚ
  pnl_pct : ℚ
  holding_period_days : ℚ
deriving Repr, DecidableEq

/-- The mutable state set up by `TradeLog.start`. -/
structure TradeLogState where
  trades : List TradeRow
  open_trades : List (Nat × OpenInfo)
  trade_id : Nat
  strategy_name : String
deriving Repr, DecidableEq

namespace TradeLog

/-- Mirrors `TradeLog.start`. -/
def start (strategy_name : String) : TradeLogState :=
  { trades := [], open_trades := [], trade_id := 0, strategy_name := strategy_name }

/-- The open-info computation shared verbatim by the open branch
(lines 55–82) and the unmatched-close synthesis branch (lines 87–111) of
`TradeLog.notify_trade`; the two differ only in whether `strategy_name`
is stored. -/
def mkOpenInfo (strategy_name : Option String) (trade_id : Nat)
    (t : TLNotification) : OpenInfo :=
  let entry_price := t.price
  let size := t.size
  let equity_at_entry := t.equity
  let position_value_at_entry := |entry_price * size|
  let position_fraction_of_equity :=
    if equity_at_entry ≠ 0 then position_value_at_entry / equity_at_entry else 0
  let side := if size > 0 then "long" else "short"
  { trade_id := trade_id
    strategy_name := strategy_name
    data_name := t.data_name
    side := side
    entry_time := t.current_dt
    entry_price := entry_price
    size := size
    equity_at_entry := equity_at_entry
    position_value_at_entry := position_value_at_entry
    position_fraction_of_equity := position_fraction_of_equity }

/-- Mirrors `TradeLog.notify_trade`. The result is `none` exactly when the
Python code would raise (the guard-free `self._open_trades.pop(obj_key)`
on a missing key — a path the synthesis branch is there to prevent). -/
def notify_trade (st : TradeLogState) (t : TLNotification) :
    Option TradeLogState :=
  if t.has_data = false then some st
  else
    let st :=
      if t.isopen ∧ alistGet st.open_trades t.obj_key = none then
        let trade_id := st.trade_id + 1
        { st with
            trade_id := trade_id
            open_trades :=
              alistSet st.open_trades t.obj_key
                (mkOpenInfo (some st.strategy_name) trade_id t) }
      else st
    if t.isclosed then
      let st :=
        if alistGet st.open_trades t.obj_key = none then
          let trade_id := st.trade_id + 1
          { st with
              trade_id := trade_id
              open_trades :=
                alistSet st.open_trades t.obj_key (mkOpenInfo none trade_id t) }
        else st
      match alistGet st.open_trades t.obj_key with
      | none => none
      | some open_info =>
          let open_trades := alistErase st.open_trades t.obj_key
          let entry_time := open_info.entry_time
          let exit_time := t.current_dt
          let exit_price := t.data_close
          let pnl_abs := t.pnlcomm.getD t.pnl
          let position_value_at_entry := open_info.position_value_at_entry
          let pnl_pct :=
            if position_value_at_entry ≠ 0 then pnl_abs / position_value_at_entry
            else 0
          let holding_period_days := (exit_time - entry_time) / 86400
          let row : TradeRow :=
            { trade_id := open_info.trade_id
              data_name := open_info.data_name
              side := open_info.side
              entry_time := entry_time
              exit_time := exit_time
              entry_price := open_info.entry_price
              exit_price := exit_price
              size := open_info.size
              position_value_at_entry := position_value_at_entry
              position_fraction_of_equity := open_info.position_fraction_of_equity
              pnl_abs := pnl_abs
              pnl_pct := pnl_pct
              holding_period_days := holding_period_days }
          some { st with trades := st.trades ++ [row], open_trades := open_trades }
    else some st

end TradeLog

/-! ### Report assembly and flat export
(`src/stats/strategySummery.py` and `src/exports/exporter.py`) -/

/-- The report dict built by `build_summary_report` (lines 62–67 of
`strategySummery.py`); sections are dicts, modelled as association lists
over an arbitrary value type. -/
structure SummaryReport (α : Type) where
  meta : List (String × α)
  performance : List (String × α)
  trades_summary : List (String × α)
  trades_table : List (List (String × α))
deriving Repr, DecidableEq

/-- The final assembly step of `build_summary_report`: the dict literal
`{"meta": meta, "performance": performance, "trades_summary": trades_summary,
"trades_table": trades_table}`. -/
def build_summary_report_assemble {α : Type} (meta performance trades_summary :
    List (String × α)) (trades_table : List (List (String × α))) :
    SummaryReport α :=
  { meta := meta
    performance := performance
    trades_summary := trades_summary
    trades_table := trades_table }

/-- Mirrors `_safe_get_analyzer` of `report_builder.py` /
`strategySummery.py`: absent attribute or raising `get_analysis()` both
yield the default. -/
def safe_get_analyzer {α : Type} (analyzers : List (String × Except Unit α))
    (name : String) (default : α) : α :=
  match alistGet analyzers name with
  | none => default
  | some (.ok a) => a
  | some (.error _) => default

/-- The `flat_row` built by `export_summary_report_csv` (lines 46–61 of
`src/exports/exporter.py`): the three sections' keys, each with its
section marker glued in front, in section order. The dict insertion
order is the iteration order of each section dict. -/
def export_summary_flat_row {α : Type} (report : SummaryReport α) :
    List (String × α) :=
  (report.meta.map fun kv => ("meta_" ++ kv.1, kv.2)) ++
    (report.performance.map fun kv => ("performance_" ++ kv.1, kv.2)) ++
    (report.trades_summary.map fun kv => ("trades_" ++ kv.1, kv.2))

/-! ### Basic lemmas about the dict model -/

theorem alistGet_alistSet_self {κ α : Type} [DecidableEq κ]
    (m : List (κ × α)) (k : κ) (v : α) :
    alistGet (alistSet m k v) k = some v := by
  induction m with
  | nil => simp [alistSet, alistGet]
  | cons kv rest ih =>
      obtain ⟨k', v'⟩ := kv
      by_cases h : k' = k
      · simp [alistSet, alistGet, h]
      · simp [alistSet, alistGet, h, ih]

/-! ### Run lemmas for the ThreeLayerAnalyzer -/

namespace ThreeLayerAnalyzer

theorem run_nil (st : AnalyzerState) : run st [] = st := rfl

theorem run_cons (st : AnalyzerState) (n : TradeNotification)
    (ns : List TradeNotification) :
    run st (n :: ns) = run (notify_trade st n) ns := rfl

theorem run_append (st : AnalyzerState) (xs ys : List TradeNotification) :
    run st (xs ++ ys) = run (run st xs) ys := by
  simp [run]

theorem notify_trade_not_closed (st : AnalyzerState) (t : TradeNotification)
    (h : t.isclosed = false) :
    notify_trade st t = { st with max_sizes := trackMaxSize st.max_sizes t.ref t.size } := by
  simp [notify_trade, h]

theorem notify_trade_closed (st : AnalyzerState) (t : TradeNotification)
    (h : t.isclosed = true) :
    notify_trade st t =
      { st with
          trades_history := st.trades_history ++ [closedEntry st t]
          trade_id_counter := st.trade_id_counter + 1
          max_sizes := alistErase (trackMaxSize st.max_sizes t.ref t.size) t.ref } := by
  simp [notify_trade, h]

theorem closedEntry_ticket_id (st : AnalyzerState) (t : TradeNotification) :
    (closedEntry st t).ticket_id = st.trade_id_counter := rfl

/-- Processing any notification stream appends, in order, one finalized
entry per closed notification, whose ticket ids continue the counter. -/
theorem run_history_tickets (ns : List TradeNotification) (st : AnalyzerState) :
    (run st ns).trades_history.map (·.ticket_id) =
        st.trades_history.map (·.ticket_id) ++
          List.range' st.trade_id_counter (ns.filter (·.isclosed)).length ∧
      (run st ns).trades_history.length =
        st.trades_history.length + (ns.filter (·.isclosed)).length := by
  induction ns generalizing st with
  | nil => simp [run]
  | cons n ns ih =>
      rw [run_cons]
      cases hc : n.isclosed with
      | false =>
          rw [notify_trade_not_closed st n hc]
          have h := ih { st with max_sizes := trackMaxSize st.max_sizes n.ref n.size }
          simpa [hc] using h
      | true =>
          rw [notify_trade_closed st n hc]
          have h := ih
            { st with
                trades_history := st.trades_history ++ [closedEntry st n]
                trade_id_counter := st.trade_id_counter + 1
                max_sizes := alistErase (trackMaxSize st.max_sizes n.ref n.size) n.ref }
          simp only [hc, List.filter_cons_of_pos, List.length_cons] at h ⊢
          rw [h.1, h.2]
          constructor
          · rw [List.range'_succ]
            simp [closedEntry_ticket_id]
          · simp only [List.length_append, List.length_singleton]
            omega

end ThreeLayerAnalyzer

/-- C2: For every sequence of notifications, the builder emits exactly one
finalized trade per close notification, and the emitted ticket ids are
exactly 1, 2, …, k in close order (assigned at finalize time, starting
at 1). -/
theorem C2_one_trade_per_close_sequential_tickets (name : String)
    (ns : List TradeNotification) :
    (ThreeLayerAnalyzer.run (ThreeLayerAnalyzer.start name) ns).trades_history.length =
        (ns.filter (·.isclosed)).length ∧
      (ThreeLayerAnalyzer.run (ThreeLayerAnalyzer.start name) ns).trades_history.map
          (·.ticket_id) =
        List.range' 1 (ns.filter (·.isclosed)).length := by
  have h := ThreeLayerAnalyzer.run_history_tickets ns (ThreeLayerAnalyzer.start name)
  simp only [ThreeLayerAnalyzer.start] at h
  exact ⟨by simpa using h.2, by simpa using h.1⟩

theorem trackMaxSize_of_not_mem (m : List (Nat × ℚ)) (ref : Nat) (size : ℚ)
    (h : alistGet m ref = none) :
    ThreeLayerAnalyzer.trackMaxSize m ref size = alistSet m ref size := by
  simp [ThreeLayerAnalyzer.trackMaxSize, h]

/-- C10: if the very first notification seen for a session is its close
(engine-reported size already 0), the analyzer still finalizes a trade,
but with size 0, side "Short", entry notional 0 and PnL percentage 0. -/
theorem C10_close_only_session (st : AnalyzerState) (t : TradeNotification)
    (hmiss : alistGet st.max_sizes t.ref = none)
    (hclosed : t.isclosed = true) (hsize : t.size = 0) :
    (ThreeLayerAnalyzer.notify_trade st t).trades_history =
        st.trades_history ++ [ThreeLayerAnalyzer.closedEntry st t] ∧
      (ThreeLayerAnalyzer.closedEntry st t).size = 0 ∧
      (ThreeLayerAnalyzer.closedEntry st t).side = "Short" ∧
      |(ThreeLayerAnalyzer.closedEntry st t).entry_price *
          (ThreeLayerAnalyzer.closedEntry st t).size| = 0 ∧
      (ThreeLayerAnalyzer.closedEntry st t).pnl_pct = 0 := by
  have htrack := trackMaxSize_of_not_mem st.max_sizes t.ref t.size hmiss
  have hget : alistGet (ThreeLayerAnalyzer.trackMaxSize st.max_sizes t.ref t.size) t.ref =
      some t.size := by
    rw [htrack]; exact alistGet_alistSet_self st.max_sizes t.ref t.size
  rw [hsize] at hget
  refine ⟨by rw [ThreeLayerAnalyzer.notify_trade_closed st t hclosed], ?_, ?_, ?_, ?_⟩ <;>
    simp [ThreeLayerAnalyzer.closedEntry, hsize, hget]

/-! ### Division guards (claim C8) -/

theorem closedEntry_pnl_pct_guard (st : AnalyzerState) (t : TradeNotification)
    (h : |(ThreeLayerAnalyzer.closedEntry st t).entry_price *
        (ThreeLayerAnalyzer.closedEntry st t).size| = 0) :
    (ThreeLayerAnalyzer.closedEntry st t).pnl_pct = 0 := by
  simp only [ThreeLayerAnalyzer.closedEntry] at h ⊢
  simp [h]

theorem run_pnl_pct_guard (ns : List TradeNotification) (st : AnalyzerState)
    (h : ∀ e ∈ st.trades_history, |e.entry_price * e.size| = 0 → e.pnl_pct = 0) :
    ∀ e ∈ (ThreeLayerAnalyzer.run st ns).trades_history,
      |e.entry_price * e.size| = 0 → e.pnl_pct = 0 := by
  induction ns generalizing st with
  | nil => simpa [ThreeLayerAnalyzer.run] using h
  | cons n ns ih =>
      rw [ThreeLayerAnalyzer.run_cons]
      cases hc : n.isclosed with
      | false =>
          rw [ThreeLayerAnalyzer.notify_trade_not_closed st n hc]
          exact ih _ (by simpa using h)
      | true =>
          rw [ThreeLayerAnalyzer.notify_trade_closed st n hc]
          refine ih _ ?_
          intro e he
          simp only [List.mem_append, List.mem_singleton] at he
          rcases he with he | rfl
          · exact h e he
          · exact closedEntry_pnl_pct_guard st n

/-- C8: a finalized trade whose entry notional `|entry_price × size|` is
zero gets PnL percentage 0 (not an error), and an open record taken at
zero equity gets position-fraction-of-equity 0 (not an error). -/
theorem C8_division_guards (name : String) (ns : List TradeNotification)
    (e : TradeLogEntry)
    (he : e ∈ (ThreeLayerAnalyzer.run (ThreeLayerAnalyzer.start name) ns).trades_history)
    (hzero : |e.entry_price * e.size| = 0)
    (sname : Option String) (tid : Nat) (t : TLNotification) (heq : t.equity = 0) :
    e.pnl_pct = 0 ∧ (TradeLog.mkOpenInfo sname tid t).position_fraction_of_equity = 0 := by
  constructor
  · exact run_pnl_pct_guard ns _ (by simp [ThreeLayerAnalyzer.start]) e he hzero
  · simp [TradeLog.mkOpenInfo, heq]

/-- C4: a close notification with no matching open record does not make
the trade log raise: the log synthesizes a record from close-time data
and emits exactly one row for that close. -/
theorem C4_missing_open_synthesized (st : TradeLogState) (t : TLNotification)
    (hdata : t.has_data = true) (hopen : t.isopen = false)
    (hclosed : t.isclosed = true)
    (hmiss : alistGet st.open_trades t.obj_key = none) :
    ∃ st' row, TradeLog.notify_trade st t = some st' ∧
      st'.trades = st.trades ++ [row] ∧
      row.trade_id = st.trade_id + 1 ∧
      row.entry_price = t.price ∧
      row.size = t.size ∧
      row.side = (if t.size > 0 then "long" else "short") ∧
      row.entry_time = t.current_dt ∧
      row.exit_time = t.current_dt ∧
      row.exit_price = t.data_close ∧
      row.pnl_abs = t.pnlcomm.getD t.pnl ∧
      row.holding_period_days = 0 := by
  simp only [TradeLog.notify_trade, hdata, hopen, hclosed, hmiss, Bool.false_eq_true,
    if_false, false_and, if_true, ite_true, ite_false,
    alistGet_alistSet_self]
  refine ⟨_, _, rfl, rfl, ?_, ?_, ?_, ?_, ?_, ?_, ?_, ?_, ?_⟩ <;>
    simp [TradeLog.mkOpenInfo]

/-! ### Profit factor (claim C3) and external risk metrics (claim C7) -/

/-- A ledger entry with a prescribed net PnL, for concrete instances. -/
def mkTrade (ticket : Nat) (pnl : ℚ) : TradeLogEntry :=
  { ticket_id := ticket
    strategy_name := "S"
    symbol := "AAPL"
    side := "Long"
    entry_time := 0
    exit_time := 0
    entry_price := 100
    exit_price := 100
    size := 1
    pnl_net := pnl
    pnl_pct := 0
    duration_days := 0 }

/-- C3 counterexample: on the empty ledger `ThreeLayerAnalyzer.stop`
reports profit factor 999 (the sentinel), not 0 as the claim states. -/
theorem C3_profit_factor_counterexample :
    (ThreeLayerAnalyzer.stop [] (ThreeLayerAnalyzer.start "S")).map
        (fun res => res.2.profit_factor) = Except.ok 999 ∧
      (999 : ℚ) ≠ 0 := by
  constructor
  · simp [ThreeLayerAnalyzer.stop, get_an, alistGet, ThreeLayerAnalyzer.start,
      symbolStatsList, groupBySymbol, strategyStatsOf, Except.map, Analysis.emptyDict]
  · norm_num

/-- C3 amended: the strategy-level profit factor is `gross_wins /
gross_losses` whenever `gross_losses > 0` (exactly 1.2 for 300 vs 250),
and is the sentinel 999 whenever `gross_losses = 0` — both when there are
wins and no losses and when the ledger is empty. -/
theorem C3_profit_factor_amended (dd sharpe : Analysis) (name : String)
    (history : List TradeLogEntry) (ssl : List SymbolStats) :
    (0 < ((history.filter (fun t => t.pnl_net < 0)).map (fun t => |t.pnl_net|)).sum →
        (strategyStatsOf dd sharpe name history ssl).profit_factor =
          ((history.filter (fun t => t.pnl_net > 0)).map (·.pnl_net)).sum /
            ((history.filter (fun t => t.pnl_net < 0)).map (fun t => |t.pnl_net|)).sum) ∧
      (((history.filter (fun t => t.pnl_net < 0)).map (fun t => |t.pnl_net|)).sum = 0 →
        (strategyStatsOf dd sharpe name history ssl).profit_factor = 999) ∧
      (strategyStatsOf dd sharpe name [mkTrade 1 300, mkTrade 2 (-250)] ssl).profit_factor =
        1.2 ∧
      (strategyStatsOf dd sharpe name [mkTrade 1 300] ssl).profit_factor = 999 ∧
      (strategyStatsOf dd sharpe name [] ssl).profit_factor = 999 := by
  refine ⟨?_, ?_, ?_, ?_, ?_⟩
  · intro h
    simp only [strategyStatsOf]
    rw [if_pos h]
  · intro h
    simp only [strategyStatsOf]
    rw [if_neg (by simp [h])]
  · norm_num [strategyStatsOf, mkTrade, List.filter]
  · norm_num [strategyStatsOf, mkTrade, List.filter]
  · norm_num [strategyStatsOf]

/-- C7 counterexample: when the drawdown analyzer is present but its
`get_analysis()` raises, `ThreeLayerAnalyzer.stop` does not substitute
0.0 — the exception propagates to the caller. -/
theorem C7_risk_metric_counterexample :
    ThreeLayerAnalyzer.stop [("drawdown", Except.error ())]
        (ThreeLayerAnalyzer.start "S") = Except.error () := by
  rfl

/-- C7 amended: when the drawdown/Sharpe analyzers are absent,
`ThreeLayerAnalyzer.stop` defaults `max_drawdown_pct` and `sharpe_ratio`
to 0 without raising; a raising retrieval is swallowed (and the default
substituted) only in the report builder's `_safe_get_analyzer`. -/
theorem C7_risk_metric_amended {α : Type} (reg : AnalyzerRegistry)
    (st : AnalyzerState) (analyzers : List (String × Except Unit α))
    (nm : String) (default : α)
    (hdd : alistGet reg "drawdown" = none)
    (hsh : alistGet reg "sharpe" = none) :
    ((ThreeLayerAnalyzer.stop reg st).map (fun res => res.2.max_drawdown_pct) =
        Except.ok 0 ∧
      (ThreeLayerAnalyzer.stop reg st).map (fun res => res.2.sharpe_ratio) =
        Except.ok 0) ∧
      (alistGet analyzers nm = none →
        safe_get_analyzer analyzers nm default = default) ∧
      (∀ e : Unit, alistGet analyzers nm = some (Except.error e) →
        safe_get_analyzer analyzers nm default = default) ∧
      (∀ a : α, alistGet analyzers nm = some (Except.ok a) →
        safe_get_analyzer analyzers nm default = a) := by
  refine ⟨⟨?_, ?_⟩, ?_, ?_, ?_⟩
  · simp [ThreeLayerAnalyzer.stop, get_an, hdd, hsh, strategyStatsOf, Analysis.emptyDict,
      Except.map]
  · simp [ThreeLayerAnalyzer.stop, get_an, hdd, hsh, strategyStatsOf, Analysis.emptyDict,
      Except.map]
  · intro h; simp [safe_get_analyzer, h]
  · intro e h; simp [safe_get_analyzer, h]
  · intro a h; simp [safe_get_analyzer, h]

/-! ### Stable sorting of symbol stats (claim C5) -/

theorem filter_orderedInsert_net_profit (a : SymbolStats) (l : List SymbolStats)
    (c : ℚ) :
    (List.orderedInsert (fun x y => x.net_profit ≤ y.net_profit) a l).filter
        (fun x => x.net_profit = c) =
      if a.net_profit = c then a :: l.filter (fun x => x.net_profit = c)
      else l.filter (fun x => x.net_profit = c) := by
  induction l with
  | nil =>
      by_cases hac : a.net_profit = c <;>
        simp [List.orderedInsert, List.filter, hac]
  | cons b bs ih =>
      by_cases hab : a.net_profit ≤ b.net_profit
      · rw [List.orderedInsert_of_le (fun x y : SymbolStats => x.net_profit ≤ y.net_profit)
          bs hab]
        by_cases hac : a.net_profit = c <;> by_cases hbc : b.net_profit = c <;>
          simp [List.filter_cons, hac, hbc]
      · have hrw : List.orderedInsert (fun x y => x.net_profit ≤ y.net_profit) a
            (b :: bs) = b :: List.orderedInsert (fun x y => x.net_profit ≤ y.net_profit)
              a bs := by
          simp [List.orderedInsert, hab]
        rw [hrw]
        by_cases hbc : b.net_profit = c
        · by_cases hac : a.net_profit = c
          · exact absurd (le_of_eq (hac.trans hbc.symm)) hab
          · simp [List.filter_cons, hbc, hac, ih]
        · by_cases hac : a.net_profit = c <;>
            simp [List.filter_cons, hbc, hac, ih]

theorem filter_insertionSort_net_profit (l : List SymbolStats) (c : ℚ) :
    (List.insertionSort (fun x y => x.net_profit ≤ y.net_profit) l).filter
        (fun x => x.net_profit = c) = l.filter (fun x => x.net_profit = c) := by
  induction l with
  | nil => rfl
  | cons a l ih =>
      rw [List.insertionSort, filter_orderedInsert_net_profit, ih]
      by_cases hac : a.net_profit = c <;> simp [List.filter_cons, hac]

/-- C5: the best/worst symbols reported by the strategy stats are the last
and first elements of a stable ascending sort of the symbol-stat list by
net profit (ties keep the original grouping order), with "N/A" standing in
when the list is empty. -/
theorem C5_best_worst_symbol_sorted (dd sharpe : Analysis) (name : String)
    (history : List TradeLogEntry) :
    ∃ s : List SymbolStats,
      (symbolStatsList name history).Perm s ∧
      List.Sorted (fun a b : SymbolStats => a.net_profit ≤ b.net_profit) s ∧
      (∀ c : ℚ, s.filter (fun x => x.net_profit = c) =
        (symbolStatsList name history).filter (fun x => x.net_profit = c)) ∧
      (strategyStatsOf dd sharpe name history
          (symbolStatsList name history)).best_symbol =
        (match s.getLast? with | some x => x.symbol | none => "N/A") ∧
      (strategyStatsOf dd sharpe name history
          (symbolStatsList name history)).worst_symbol =
        (match s.head? with | some x => x.symbol | none => "N/A") := by
  refine ⟨List.insertionSort (fun a b => a.net_profit ≤ b.net_profit)
    (symbolStatsList name history), ?_, ?_, ?_, ?_, ?_⟩
  · exact (List.perm_insertionSort _ _).symm
  · haveI : IsTotal SymbolStats (fun a b => a.net_profit ≤ b.net_profit) :=
      ⟨fun a b => le_total _ _⟩
    haveI : IsTrans SymbolStats (fun a b => a.net_profit ≤ b.net_profit) :=
      ⟨fun _ _ _ hab hbc => le_trans hab hbc⟩
    exact List.sorted_insertionSort _ _
  · intro c; exact filter_insertionSort_net_profit _ c
  · rfl
  · rfl

/-! ### Per-symbol aggregation (claim C6) -/

theorem le_foldl_max (a : ℚ) (l : List ℚ) : a ≤ l.foldl max a := by
  induction l generalizing a with
  | nil => exact le_refl a
  | cons x l ih => exact le_trans (le_max_left a x) (ih (max a x))

theorem mem_le_foldl_max (l : List ℚ) (a y : ℚ) (hy : y ∈ l) :
    y ≤ l.foldl max a := by
  induction l generalizing a with
  | nil => cases hy
  | cons x l ih =>
      rcases List.mem_cons.mp hy with rfl | hy
      · exact le_trans (le_max_right a y) (le_foldl_max (max a y) l)
      · exact ih (max a x) hy

theorem foldl_max_mem (l : List ℚ) (a : ℚ) : l.foldl max a ∈ a :: l := by
  induction l generalizing a with
  | nil => simp [List.foldl]
  | cons x l ih =>
      have h := ih (max a x)
      rcases List.mem_cons.mp h with h | h
      · rcases max_choice a x with hm | hm <;> rw [List.foldl] <;> rw [h, hm] <;> simp
      · simp [List.foldl, List.mem_cons.mpr (Or.inr h)]

theorem foldl_min_le (a : ℚ) (l : List ℚ) : l.foldl min a ≤ a := by
  induction l generalizing a with
  | nil => exact le_refl a
  | cons x l ih => exact le_trans (ih (min a x)) (min_le_left a x)

theorem foldl_min_le_mem (l : List ℚ) (a y : ℚ) (hy : y ∈ l) :
    l.foldl min a ≤ y := by
  induction l generalizing a with
  | nil => cases hy
  | cons x l ih =>
      rcases List.mem_cons.mp hy with rfl | hy
      · exact le_trans (foldl_min_le (min a y) l) (min_le_right a y)
      · exact ih (min a x) hy

theorem foldl_min_mem (l : List ℚ) (a : ℚ) : l.foldl min a ∈ a :: l := by
  induction l generalizing a with
  | nil => simp [List.foldl]
  | cons x l ih =>
      have h := ih (min a x)
      rcases List.mem_cons.mp h with h | h
      · rcases min_choice a x with hm | hm <;> rw [List.foldl] <;> rw [h, hm] <;> simp
      · simp [List.foldl, List.mem_cons.mpr (Or.inr h)]

theorem le_maxD (l : List ℚ) (d x : ℚ) (hx : x ∈ l) : x ≤ maxD l d := by
  cases l with
  | nil => cases hx
  | cons a as =>
      rcases List.mem_cons.mp hx with rfl | hx
      · exact le_foldl_max x as
      · exact mem_le_foldl_max as a x hx

theorem maxD_mem (l : List ℚ) (d : ℚ) (h : l ≠ []) : maxD l d ∈ l := by
  cases l with
  | nil => exact absurd rfl h
  | cons a as => exact foldl_max_mem as a

theorem minD_le (l : List ℚ) (d x : ℚ) (hx : x ∈ l) : minD l d ≤ x := by
  cases l with
  | nil => cases hx
  | cons a as =>
      rcases List.mem_cons.mp hx with rfl | hx
      · exact foldl_min_le x as
      · exact foldl_min_le_mem as a x hx

theorem minD_mem (l : List ℚ) (d : ℚ) (h : l ≠ []) : minD l d ∈ l := by
  cases l with
  | nil => exact absurd rfl h
  | cons a as => exact foldl_min_mem as a

/-- C6: the symbol aggregator's win rate is wins/total × 100 (0 for an
empty group), net profit is the sum of net PnLs, best/worst trade are the
attained max/min net PnL; on net PnLs [100, −50, 200, −200] it yields
win_rate 50, net_profit 50, best 200, worst −200. -/
theorem C6_symbol_aggregator (name symbol : String)
    (trades : List TradeLogEntry) (hne : trades ≠ []) :
    (symbolStatsOf name symbol trades).net_profit =
        (trades.map (·.pnl_net)).sum ∧
      (symbolStatsOf name symbol trades).win_rate =
        ((trades.filter (fun t => t.pnl_net > 0)).length : ℚ) / trades.length * 100 ∧
      (symbolStatsOf name symbol []).win_rate = 0 ∧
      (∀ t ∈ trades,
        t.pnl_net ≤ (symbolStatsOf name symbol trades).best_trade ∧
          (symbolStatsOf name symbol trades).worst_trade ≤ t.pnl_net) ∧
      (symbolStatsOf name symbol trades).best_trade ∈ trades.map (·.pnl_net) ∧
      (symbolStatsOf name symbol trades).worst_trade ∈ trades.map (·.pnl_net) ∧
      symbolStatsList name
          [mkTrade 1 100, mkTrade 2 (-50), mkTrade 3 200, mkTrade 4 (-200)] =
        [{ strategy_name := name
           symbol := "AAPL"
           total_trades := 4
           net_profit := 50
           win_rate := 50
           avg_trade_pnl := 25/2
           best_trade := 200
           worst_trade := -200 }] := by
  have hlen : trades.length ≠ 0 := fun h => hne (List.length_eq_zero.mp h)
  refine ⟨by simp [symbolStatsOf], by simp [symbolStatsOf, hlen], by simp [symbolStatsOf],
    ?_, ?_, ?_, ?_⟩
  · intro t ht
    constructor
    · exact le_maxD _ 0 t.pnl_net (List.mem_map_of_mem _ ht)
    · exact minD_le _ 0 t.pnl_net (List.mem_map_of_mem _ ht)
  · exact maxD_mem _ 0 (by simpa using hne)
  · exact minD_mem _ 0 (by simpa using hne)
  · norm_num [symbolStatsList, groupBySymbol, symbolStatsOf, mkTrade, maxD, minD,
      List.filter, List.cons_ne_nil]

/-! ### Maximum-magnitude size tracking (claim C1) -/

/-- One update of the remembered size (lines 23–25 of `analyzers.py`). -/
def sizeStep (cur s : ℚ) : ℚ := if |s| > |cur| then s else cur

theorem sizeStep_foldl_mem (l : List ℚ) (a : ℚ) : l.foldl sizeStep a ∈ a :: l := by
  induction l generalizing a with
  | nil => simp [List.foldl]
  | cons x l ih =>
      have h := ih (sizeStep a x)
      by_cases hx : |x| > |a|
      · rcases List.mem_cons.mp h with h | h
        · rw [List.foldl, h]
          simp [sizeStep, hx]
        · simp [List.foldl, List.mem_cons.mpr (Or.inr (List.mem_cons.mpr (Or.inr h)))]
      · rcases List.mem_cons.mp h with h | h
        · rw [List.foldl, h]
          simp [sizeStep, hx]
        · simp [List.foldl, List.mem_cons.mpr (Or.inr (List.mem_cons.mpr (Or.inr h)))]

theorem abs_le_sizeStep_left (a x : ℚ) : |a| ≤ |sizeStep a x| := by
  by_cases h : |x| > |a| <;> simp [sizeStep, h]
  · exact le_of_lt h

theorem abs_le_sizeStep_right (a x : ℚ) : |x| ≤ |sizeStep a x| := by
  by_cases h : |x| > |a| <;> simp [sizeStep, h]
  · exact le_of_not_lt h

theorem sizeStep_foldl_le (l : List ℚ) (a : ℚ) :
    ∀ s ∈ a :: l, |s| ≤ |l.foldl sizeStep a| := by
  induction l generalizing a with
  | nil => intro s hs; rw [List.mem_singleton.mp hs]; exact le_refl _
  | cons x l ih =>
      intro s hs
      have hhead : |sizeStep a x| ≤ |l.foldl sizeStep (sizeStep a x)| :=
        ih (sizeStep a x) _ (List.mem_cons_self _ _)
      rcases List.mem_cons.mp hs with rfl | hs
      · exact le_trans (abs_le_sizeStep_left s x) hhead
      · rcases List.mem_cons.mp hs with rfl | hs
        · exact le_trans (abs_le_sizeStep_right a s) hhead
        · exact ih (sizeStep a x) s (List.mem_cons.mpr (Or.inr hs))

theorem trackMaxSize_single (r : Nat) (a s : ℚ) :
    ThreeLayerAnalyzer.trackMaxSize [(r, a)] r s = [(r, sizeStep a s)] := by
  by_cases h : |s| > |a| <;>
    simp [ThreeLayerAnalyzer.trackMaxSize, alistGet, alistSet, sizeStep, h]

/-- Processing only-open notifications of one session folds `sizeStep`
over their sizes and touches nothing else of the state. -/
theorem run_open_only (r : Nat) (ns : List TradeNotification)
    (hns : ∀ n ∈ ns, n.ref = r ∧ n.isclosed = false) (a : ℚ) (st : AnalyzerState)
    (hst : st.max_sizes = [(r, a)]) :
    ThreeLayerAnalyzer.run st ns =
      { trades_history := st.trades_history
        trade_id_counter := st.trade_id_counter
        strategy_name := st.strategy_name
        max_sizes := [(r, (ns.map (·.size)).foldl sizeStep a)] } := by
  induction ns generalizing a st with
  | nil =>
      cases st
      simp_all [ThreeLayerAnalyzer.run]
  | cons n ns ih =>
      obtain ⟨hr, hc⟩ := hns n (List.mem_cons_self _ _)
      rw [ThreeLayerAnalyzer.run_cons, ThreeLayerAnalyzer.notify_trade_not_closed st n hc]
      have htrack : ThreeLayerAnalyzer.trackMaxSize st.max_sizes n.ref n.size =
          [(r, sizeStep a n.size)] := by
        rw [hst, hr]; exact trackMaxSize_single r a n.size
      rw [List.map_cons, List.foldl_cons]
      exact ih (fun x hx => hns x (List.mem_cons.mpr (Or.inr hx))) (sizeStep a n.size)
        _ (by simp [htrack])

/-- The spec §8 scenario notifications for session "T1" on "AAPL":
open(size = +50, price = 100), update(size = 0), close(price still 100,
market close 110, net PnL 450). -/
def scenarioOpen : TradeNotification :=
  { ref := 1
    symbol := "AAPL"
    isclosed := false
    size := 50
    price := 100
    pnlcomm := 0
    data_close := 0
    open_dt := 0
    close_dt := 0 }

def scenarioUpdate : TradeNotification := { scenarioOpen with size := 0 }

def scenarioClose : TradeNotification :=
  { scenarioOpen with isclosed := true, size := 0, pnlcomm := 450, data_close := 110 }

/-- C1: for a session of open/update notifications followed by its close,
the single emitted trade's size is a maximum-magnitude size over all of the
session's notifications (never the close-time size field), and side,
entry notional and PnL% derive from it; the concrete spec scenario yields
side Long, size 50, entry 100, exit 110, pnl_net 450, pnl_pct 9. -/
theorem C1_remembered_max_size (name : String) (r : Nat)
    (ns : List TradeNotification) (c : TradeNotification)
    (hns : ∀ n ∈ ns, n.ref = r ∧ n.isclosed = false)
    (hcr : c.ref = r) (hcc : c.isclosed = true) :
    (∃ m : ℚ,
      m ∈ ns.map (·.size) ++ [c.size] ∧
      (∀ s ∈ ns.map (·.size) ++ [c.size], |s| ≤ |m|) ∧
      (ThreeLayerAnalyzer.run (ThreeLayerAnalyzer.start name) (ns ++ [c])).trades_history =
        [{ ticket_id := 1
           strategy_name := name
           symbol := c.symbol
           side := if m > 0 then "Long" else "Short"
           entry_time := c.open_dt
           exit_time := c.close_dt
           entry_price := c.price
           exit_price := c.data_close
           size := m
           pnl_net := c.pnlcomm
           pnl_pct := if |c.price * m| ≠ 0 then c.pnlcomm / |c.price * m| * 100 else 0
           duration_days := (c.close_dt - c.open_dt) / 86400 }]) ∧
    (ThreeLayerAnalyzer.run (ThreeLayerAnalyzer.start "Strat")
        [scenarioOpen, scenarioUpdate, scenarioClose]).trades_history =
      [{ ticket_id := 1
         strategy_name := "Strat"
         symbol := "AAPL"
         side := "Long"
         entry_time := 0
         exit_time := 0
         entry_price := 100
         exit_price := 110
         size := 50
         pnl_net := 450
         pnl_pct := 9
         duration_days := 0 }] := by
  constructor
  · cases ns with
    | nil =>
        refine ⟨c.size, by simp, by simp, ?_⟩
        simp only [List.nil_append]
        rw [show ThreeLayerAnalyzer.run (ThreeLayerAnalyzer.start name) [c] =
          ThreeLayerAnalyzer.notify_trade (ThreeLayerAnalyzer.start name) c from rfl]
        rw [ThreeLayerAnalyzer.notify_trade_closed _ _ hcc]
        simp [ThreeLayerAnalyzer.start, ThreeLayerAnalyzer.closedEntry,
          ThreeLayerAnalyzer.trackMaxSize, alistGet, alistSet]
    | cons n0 rest =>
        obtain ⟨hr0, hc0⟩ := hns n0 (List.mem_cons_self _ _)
        refine ⟨(rest.map (·.size) ++ [c.size]).foldl sizeStep n0.size, ?_, ?_, ?_⟩
        · have h := sizeStep_foldl_mem (rest.map (·.size) ++ [c.size]) n0.size
          simpa using h
        · have h := sizeStep_foldl_le (rest.map (·.size) ++ [c.size]) n0.size
          intro s hs
          exact h s (by simpa using hs)
        · rw [show ((n0 :: rest) ++ [c] : List TradeNotification) =
            n0 :: (rest ++ [c]) from rfl]
          rw [ThreeLayerAnalyzer.run_cons,
            ThreeLayerAnalyzer.notify_trade_not_closed _ _ hc0]
          have hst1 : (ThreeLayerAnalyzer.trackMaxSize
              (ThreeLayerAnalyzer.start name).max_sizes n0.ref n0.size) =
              [(r, n0.size)] := by
            simp [ThreeLayerAnalyzer.start, ThreeLayerAnalyzer.trackMaxSize,
              alistGet, alistSet, hr0]
          rw [ThreeLayerAnalyzer.run_append]
          rw [run_open_only r rest (fun x hx => hns x (List.mem_cons.mpr (Or.inr hx)))
            n0.size _ (by simp [hst1])]
          rw [show ∀ st : AnalyzerState, ThreeLayerAnalyzer.run st [c] =
            ThreeLayerAnalyzer.notify_trade st c from fun _ => rfl]
          rw [ThreeLayerAnalyzer.notify_trade_closed _ _ hcc]
          simp only [ThreeLayerAnalyzer.start, ThreeLayerAnalyzer.closedEntry]
          rw [show (ThreeLayerAnalyzer.trackMaxSize
              [(r, (rest.map (·.size)).foldl sizeStep n0.size)] c.ref c.size) =
              [(r, sizeStep ((rest.map (·.size)).foldl sizeStep n0.size) c.size)] by
            rw [hcr]; exact trackMaxSize_single r _ c.size]
          simp [alistGet, List.foldl_append, hcr]
  · norm_num [ThreeLayerAnalyzer.run, ThreeLayerAnalyzer.notify_trade,
      ThreeLayerAnalyzer.closedEntry, ThreeLayerAnalyzer.trackMaxSize,
      ThreeLayerAnalyzer.start, alistGet, alistSet, alistErase,
      scenarioOpen, scenarioUpdate, scenarioClose]

/-! ### Report assembly and flat export (claim C9) -/

theorem string_glue_left_cancel {p k1 k2 : String} (h : p ++ k1 = p ++ k2) :
    k1 = k2 :=
  String.ext (by simpa [String.data_append] using congrArg String.data h)

theorem meta_key_ne_performance_key (k1 k2 : String) :
    ("meta_" ++ k1 : String) ≠ "performance_" ++ k2 := by
  intro h
  have h2 := congrArg String.data h
  simp [String.data_append] at h2

theorem meta_key_ne_trades_key (k1 k2 : String) :
    ("meta_" ++ k1 : String) ≠ "trades_" ++ k2 := by
  intro h
  have h2 := congrArg String.data h
  simp [String.data_append] at h2

theorem performance_key_ne_meta_key (k1 k2 : String) :
    ("performance_" ++ k1 : String) ≠ "meta_" ++ k2 := by
  intro h
  have h2 := congrArg String.data h
  simp [String.data_append] at h2

theorem performance_key_ne_trades_key (k1 k2 : String) :
    ("performance_" ++ k1 : String) ≠ "trades_" ++ k2 := by
  intro h
  have h2 := congrArg String.data h
  simp [String.data_append] at h2

theorem trades_key_ne_meta_key (k1 k2 : String) :
    ("trades_" ++ k1 : String) ≠ "meta_" ++ k2 := by
  intro h
  have h2 := congrArg String.data h
  simp [String.data_append] at h2

theorem trades_key_ne_performance_key (k1 k2 : String) :
    ("trades_" ++ k1 : String) ≠ "performance_" ++ k2 := by
  intro h
  have h2 := congrArg String.data h
  simp [String.data_append] at h2

theorem filter_glue_map_of_ne {α : Type} (pre : String) (l : List (String × α))
    (k0 : String) (h : ∀ x : String, (pre ++ x : String) ≠ k0) :
    (l.map fun kv => (pre ++ kv.1, kv.2)).filter (fun kv => kv.1 = k0) = [] := by
  induction l with
  | nil => rfl
  | cons kv rest ih => simp [List.filter_cons, h kv.1, ih]

theorem filter_glue_map_of_not_mem {α : Type} (pre : String)
    (l : List (String × α)) (k : String) (h : k ∉ l.map Prod.fst) :
    (l.map fun kv => (pre ++ kv.1, kv.2)).filter
      (fun kv => kv.1 = pre ++ k) = [] := by
  induction l with
  | nil => rfl
  | cons kv rest ih =>
      simp only [List.map_cons, List.mem_cons] at h
      push_neg at h
      have hne : ¬((pre ++ kv.1 : String) = pre ++ k) := fun hc =>
        h.1 (string_glue_left_cancel hc).symm
      simp [List.filter_cons, hne, ih h.2]

theorem filter_glue_map_self {α : Type} (pre : String) (l : List (String × α))
    (k : String) (v : α) (hnd : (l.map Prod.fst).Nodup) (hmem : (k, v) ∈ l) :
    (l.map fun kv => (pre ++ kv.1, kv.2)).filter (fun kv => kv.1 = pre ++ k) =
      [(pre ++ k, v)] := by
  induction l with
  | nil => cases hmem
  | cons kv rest ih =>
      obtain ⟨k', v'⟩ := kv
      simp only [List.map_cons, List.nodup_cons] at hnd
      rcases List.mem_cons.mp hmem with heq | hmem'
      · obtain ⟨hk, hv⟩ := Prod.mk.injEq .. ▸ heq
        subst hk; subst hv
        have hrest : (rest.map fun kv => (pre ++ kv.1, kv.2)).filter
            (fun kv => kv.1 = pre ++ k) = [] :=
          filter_glue_map_of_not_mem pre rest k hnd.1
        simp [List.filter_cons, hrest]
      · have hk' : k' ≠ k := by
          intro hc
          subst hc
          exact hnd.1 (List.mem_map.mpr ⟨(k', v), hmem', rfl⟩)
        have hne : ¬((pre ++ k' : String) = pre ++ k) := fun hc =>
          hk' (string_glue_left_cancel hc)
        simp [List.filter_cons, hne, ih hnd.2 hmem']

/-- C9: assembling the summary report and reading back each section is the
identity (pure merge), and in the flat single-row export every key of each
section appears exactly once, tagged with its section marker and with its
value unchanged. -/
theorem C9_report_roundtrip_flatten {α : Type}
    (meta performance trades_summary : List (String × α))
    (trades_table : List (List (String × α)))
    (hm : (meta.map Prod.fst).Nodup)
    (hp : (performance.map Prod.fst).Nodup)
    (ht : (trades_summary.map Prod.fst).Nodup) :
    (build_summary_report_assemble meta performance trades_summary
        trades_table).meta = meta ∧
      (build_summary_report_assemble meta performance trades_summary
        trades_table).performance = performance ∧
      (build_summary_report_assemble meta performance trades_summary
        trades_table).trades_summary = trades_summary ∧
      (build_summary_report_assemble meta performance trades_summary
        trades_table).trades_table = trades_table ∧
      (∀ k v, (k, v) ∈ meta →
        (export_summary_flat_row (build_summary_report_assemble meta performance
            trades_summary trades_table)).filter
          (fun kv => kv.1 = "meta_" ++ k) = [("meta_" ++ k, v)]) ∧
      (∀ k v, (k, v) ∈ performance →
        (export_summary_flat_row (build_summary_report_assemble meta performance
            trades_summary trades_table)).filter
          (fun kv => kv.1 = "performance_" ++ k) = [("performance_" ++ k, v)]) ∧
      (∀ k v, (k, v) ∈ trades_summary →
        (export_summary_flat_row (build_summary_report_assemble meta performance
            trades_summary trades_table)).filter
          (fun kv => kv.1 = "trades_" ++ k) = [("trades_" ++ k, v)]) := by
  refine ⟨rfl, rfl, rfl, rfl, ?_, ?_, ?_⟩
  · intro k v hmem
    simp only [export_summary_flat_row, build_summary_report_assemble,
      List.filter_append]
    rw [filter_glue_map_self "meta_" meta k v hm hmem,
      filter_glue_map_of_ne "performance_" performance ("meta_" ++ k)
        (fun x => performance_key_ne_meta_key x k),
      filter_glue_map_of_ne "trades_" trades_summary ("meta_" ++ k)
        (fun x => trades_key_ne_meta_key x k)]
    simp
  · intro k v hmem
    simp only [export_summary_flat_row, build_summary_report_assemble,
      List.filter_append]
    rw [filter_glue_map_self "performance_" performance k v hp hmem,
      filter_glue_map_of_ne "meta_" meta ("performance_" ++ k)
        (fun x => meta_key_ne_performance_key x k),
      filter_glue_map_of_ne "trades_" trades_summary ("performance_" ++ k)
        (fun x => trades_key_ne_performance_key x k)]
    simp
  · intro k v hmem
    simp only [export_summary_flat_row, build_summary_report_assemble,
      List.filter_append]
    rw [filter_glue_map_self "trades_" trades_summary k v ht hmem,
      filter_glue_map_of_ne "meta_" meta ("trades_" ++ k)
        (fun x => meta_key_ne_trades_key x k),
      filter_glue_map_of_ne "performance_" performance ("trades_" ++ k)
        (fun x => performance_key_ne_trades_key x k)]
    simp

/-! ### Concrete witnesses -/

/-- A close notification whose trade object was never seen open. -/
def sampleTLClose : TLNotification :=
  { has_data := true
    obj_key := 7
    isopen := false
    isclosed := true
    price := 100
    size := 0
    data_name := "AAPL"
    current_dt := 0
    data_close := 110
    pnlcomm := some 450
    pnl := 455
    equity := 100000 }

theorem C1_remembered_max_size_witness :
    (ThreeLayerAnalyzer.run (ThreeLayerAnalyzer.start "Strat")
        [scenarioOpen, scenarioUpdate, scenarioClose]).trades_history =
      [{ ticket_id := 1
         strategy_name := "Strat"
         symbol := "AAPL"
         side := "Long"
         entry_time := 0
         exit_time := 0
         entry_price := 100
         exit_price := 110
         size := 50
         pnl_net := 450
         pnl_pct := 9
         duration_days := 0 }] :=
  (C1_remembered_max_size "Strat" 1 [scenarioOpen, scenarioUpdate] scenarioClose
    (by decide) (by decide) (by decide)).2

theorem C3_profit_factor_amended_witness :
    0 < (([mkTrade 1 300, mkTrade 2 (-250)].filter (fun t => t.pnl_net < 0)).map
        (fun t => |t.pnl_net|)).sum ∧
      (strategyStatsOf Analysis.emptyDict Analysis.emptyDict "S"
          [mkTrade 1 300, mkTrade 2 (-250)] []).profit_factor =
        (([mkTrade 1 300, mkTrade 2 (-250)].filter (fun t => t.pnl_net > 0)).map
            (·.pnl_net)).sum /
          (([mkTrade 1 300, mkTrade 2 (-250)].filter (fun t => t.pnl_net < 0)).map
            (fun t => |t.pnl_net|)).sum := by
  have hgl : 0 < (([mkTrade 1 300, mkTrade 2 (-250)].filter
      (fun t => t.pnl_net < 0)).map (fun t => |t.pnl_net|)).sum := by
    norm_num [mkTrade, List.filter]
  exact ⟨hgl, (C3_profit_factor_amended Analysis.emptyDict Analysis.emptyDict "S"
    [mkTrade 1 300, mkTrade 2 (-250)] []).1 hgl⟩

theorem C4_missing_open_synthesized_witness :
    ∃ st' row, TradeLog.notify_trade (TradeLog.start "S") sampleTLClose = some st' ∧
      st'.trades = (TradeLog.start "S").trades ++ [row] ∧
      row.trade_id = (TradeLog.start "S").trade_id + 1 ∧
      row.entry_price = sampleTLClose.price ∧
      row.size = sampleTLClose.size ∧
      row.side = (if sampleTLClose.size > 0 then "long" else "short") ∧
      row.entry_time = sampleTLClose.current_dt ∧
      row.exit_time = sampleTLClose.current_dt ∧
      row.exit_price = sampleTLClose.data_close ∧
      row.pnl_abs = sampleTLClose.pnlcomm.getD sampleTLClose.pnl ∧
      row.holding_period_days = 0 :=
  C4_missing_open_synthesized (TradeLog.start "S") sampleTLClose rfl rfl rfl rfl

theorem C6_symbol_aggregator_witness :
    ([mkTrade 1 100, mkTrade 2 (-50), mkTrade 3 200, mkTrade 4 (-200)] :
        List TradeLogEntry) ≠ [] ∧
      (symbolStatsOf "X" "AAPL"
          [mkTrade 1 100, mkTrade 2 (-50), mkTrade 3 200, mkTrade 4 (-200)]).net_profit =
        ([mkTrade 1 100, mkTrade 2 (-50), mkTrade 3 200,
            mkTrade 4 (-200)].map (·.pnl_net)).sum :=
  ⟨by simp, (C6_symbol_aggregator "X" "AAPL"
    [mkTrade 1 100, mkTrade 2 (-50), mkTrade 3 200, mkTrade 4 (-200)] (by simp)).1⟩

theorem C7_risk_metric_amended_witness :
    (ThreeLayerAnalyzer.stop [] (ThreeLayerAnalyzer.start "S")).map
        (fun res => res.2.max_drawdown_pct) = Except.ok 0 ∧
      safe_get_analyzer [("drawdown", (Except.error () : Except Unit Analysis))]
        "drawdown" Analysis.emptyDict = Analysis.emptyDict :=
  ⟨((C7_risk_metric_amended ([] : AnalyzerRegistry) (ThreeLayerAnalyzer.start "S")
      [("drawdown", (Except.error () : Except Unit Analysis))] "drawdown"
      Analysis.emptyDict rfl rfl).1).1,
    (C7_risk_metric_amended ([] : AnalyzerRegistry) (ThreeLayerAnalyzer.start "S")
      [("drawdown", (Except.error () : Except Unit Analysis))] "drawdown"
      Analysis.emptyDict rfl rfl).2.2.1 () rfl⟩

theorem C8_division_guards_witness :
    (ThreeLayerAnalyzer.closedEntry (ThreeLayerAnalyzer.start "S")
        scenarioClose).pnl_pct = 0 ∧
      (TradeLog.mkOpenInfo none 1
        { sampleTLClose with equity := 0 }).position_fraction_of_equity = 0 := by
  have hrun : (ThreeLayerAnalyzer.run (ThreeLayerAnalyzer.start "S")
      [scenarioClose]).trades_history =
      (ThreeLayerAnalyzer.start "S").trades_history ++
        [ThreeLayerAnalyzer.closedEntry (ThreeLayerAnalyzer.start "S") scenarioClose] := by
    rw [show ThreeLayerAnalyzer.run (ThreeLayerAnalyzer.start "S") [scenarioClose] =
      ThreeLayerAnalyzer.notify_trade (ThreeLayerAnalyzer.start "S") scenarioClose
        from rfl]
    rw [ThreeLayerAnalyzer.notify_trade_closed _ _ rfl]
  have he : ThreeLayerAnalyzer.closedEntry (ThreeLayerAnalyzer.start "S")
      scenarioClose ∈ (ThreeLayerAnalyzer.run (ThreeLayerAnalyzer.start "S")
        [scenarioClose]).trades_history := by
    rw [hrun]; simp [ThreeLayerAnalyzer.start]
  have hzero : |(ThreeLayerAnalyzer.closedEntry (ThreeLayerAnalyzer.start "S")
      scenarioClose).entry_price * (ThreeLayerAnalyzer.closedEntry
        (ThreeLayerAnalyzer.start "S") scenarioClose).size| = 0 := by
    norm_num [ThreeLayerAnalyzer.closedEntry, ThreeLayerAnalyzer.trackMaxSize,
      ThreeLayerAnalyzer.start, alistGet, alistSet, scenarioClose, scenarioOpen]
  exact C8_division_guards "S" [scenarioClose] _ he hzero none 1
    { sampleTLClose with equity := 0 } rfl

theorem C9_report_roundtrip_flatten_witness :
    (export_summary_flat_row (build_summary_report_assemble [("a", 1)] [("b", 2)]
        [("c", 3)] ([] : List (List (String × Nat))))).filter
      (fun kv => kv.1 = "meta_" ++ "a") = [("meta_" ++ "a", 1)] :=
  (C9_report_roundtrip_flatten [("a", 1)] [("b", 2)] [("c", 3)]
    ([] : List (List (String × Nat))) (by simp) (by simp) (by simp)).2.2.2.2.1
    "a" 1 (by simp)

theorem C10_close_only_session_witness :
    (ThreeLayerAnalyzer.notify_trade (ThreeLayerAnalyzer.start "S")
        scenarioClose).trades_history =
      (ThreeLayerAnalyzer.start "S").trades_history ++
        [ThreeLayerAnalyzer.closedEntry (ThreeLayerAnalyzer.start "S") scenarioClose] ∧
      (ThreeLayerAnalyzer.closedEntry (ThreeLayerAnalyzer.start "S")
        scenarioClose).size = 0 ∧
      (ThreeLayerAnalyzer.closedEntry (ThreeLayerAnalyzer.start "S")
        scenarioClose).side = "Short" ∧
      |(ThreeLayerAnalyzer.closedEntry (ThreeLayerAnalyzer.start "S")
          scenarioClose).entry_price *
        (ThreeLayerAnalyzer.closedEntry (ThreeLayerAnalyzer.start "S")
          scenarioClose).size| = 0 ∧
      (ThreeLayerAnalyzer.closedEntry (ThreeLayerAnalyzer.start "S")
        scenarioClose).pnl_pct = 0 :=
  C10_close_only_session (ThreeLayerAnalyzer.start "S") scenarioClose rfl rfl rfl

end CodeBulls
